import Mathlib

/-
Verification of the dndtools spell crawler (src/index.ts) against its
natural-language specification.

The TypeScript source is shallowly embedded below.  Pure computations
(regular-expression matches, parseInt, the id extraction) are translated
into executable Lean functions.  Effectful browser interactions are
modelled at their interface boundary: every document query that can
reject is a field of type `Except String _` in a `Doc` (one loaded spell
page) or `Row` (one table row of the list page), and the control flow of
the TypeScript (try/catch, retry loops, the driver) is translated into
functions over those values.  The concurrency scheduler of the external
`async.eachLimit` library is modelled as a step relation.
-/

namespace DndCrawler

/-- Constant `RULEBOOKS` from index.ts line 9: allow-list of rulebook names. -/
def RULEBOOKS : List String := ["Player\x27s Handbook v.3.5", "Spell Compendium"]

/-- Constant `CONCURRENCY` from index.ts line 13. -/
def CONCURRENCY : Nat := 4

/-- Constant `RETRY_LIMIT` from index.ts line 14. -/
def RETRY_LIMIT : Nat := 10

/-- JavaScript regular-expression class `\d`: the ASCII digits. -/
def isDigitChar (c : Char) : Bool := decide (48 ≤ c.toNat ∧ c.toNat ≤ 57)

/-- JavaScript regular-expression class `\s` (WhiteSpace plus LineTerminator). -/
def isJsWhitespace (c : Char) : Bool :=
  decide (c.toNat = 9 ∨ c.toNat = 10 ∨ c.toNat = 11 ∨ c.toNat = 12 ∨ c.toNat = 13 ∨
    c.toNat = 32 ∨ c.toNat = 160 ∨ c.toNat = 5760 ∨ (8192 ≤ c.toNat ∧ c.toNat ≤ 8202) ∨
    c.toNat = 8232 ∨ c.toNat = 8233 ∨ c.toNat = 8239 ∨ c.toNat = 8287 ∨
    c.toNat = 12288 ∨ c.toNat = 65279)

/-- JavaScript LineTerminator characters, which `.` does not match. -/
def isLineTerminator (c : Char) : Bool :=
  decide (c.toNat = 10 ∨ c.toNat = 13 ∨ c.toNat = 8232 ∨ c.toNat = 8233)

/-- Decimal value of a list of ASCII digits (JavaScript `parseInt` on an
all-digit string). -/
def digitsToNat (ds : List Char) : Nat :=
  List.foldl (fun a c => a * 10 + (c.toNat - 48)) 0 ds

/-- Hexadecimal digit test, for `parseInt` hex-prefix handling. -/
def isHexDigit (c : Char) : Bool :=
  decide ((48 ≤ c.toNat ∧ c.toNat ≤ 57) ∨ (97 ≤ c.toNat ∧ c.toNat ≤ 102) ∨
    (65 ≤ c.toNat ∧ c.toNat ≤ 70))

/-- Value of one hexadecimal digit. -/
def hexDigitVal (c : Char) : Nat :=
  if 48 ≤ c.toNat ∧ c.toNat ≤ 57 then c.toNat - 48
  else if 97 ≤ c.toNat ∧ c.toNat ≤ 102 then c.toNat - 87
  else c.toNat - 55

/-- Hexadecimal value of a list of hex digits. -/
def hexToNat (ds : List Char) : Nat :=
  List.foldl (fun a c => a * 16 + hexDigitVal c) 0 ds

/-- Digit part of JavaScript `parseInt` with no radix argument: an optional
`0x`/`0X` prefix selects base 16, otherwise the leading decimal digits are
taken; no digits at all gives NaN, modelled as `none`. -/
def parseIntDigits (cs : List Char) : Option Nat :=
  match cs with
  | '0' :: x :: rest =>
    if x = 'x' ∨ x = 'X' then
      match rest.takeWhile isHexDigit with
      | [] => none
      | hs => some (hexToNat hs)
    else
      match cs.takeWhile isDigitChar with
      | [] => none
      | ds => some (digitsToNat ds)
  | _ =>
    match cs.takeWhile isDigitChar with
    | [] => none
    | ds => some (digitsToNat ds)

/-- JavaScript `parseInt(s)`: skip leading whitespace, optional sign, then
digits; `none` models NaN. -/
def parseIntJS (s : String) : Option Int :=
  match s.data.dropWhile isJsWhitespace with
  | '-' :: rest => (parseIntDigits rest).map (fun n => -(n : Int))
  | '+' :: rest => (parseIntDigits rest).map (fun n => (n : Int))
  | cs => (parseIntDigits cs).map (fun n => (n : Int))

/-- First maximal run of digits in a string (`/\d+/.exec`), used by
`readSource` for the page number; `none` models a failed match. -/
def firstDigitRun : List Char → Option (List Char)
  | [] => none
  | c :: cs => if isDigitChar c then some (c :: cs.takeWhile isDigitChar) else firstDigitRun cs

/-- Type `ClassSpellLevel` from index.ts lines 25-28. -/
structure ClassSpellLevel where
  «class» : String
  level : Nat
deriving DecidableEq, Repr

/-- Type `DomainSpellLevel` from index.ts lines 30-33.  The level is produced
by `parseInt` on the text node after the domain link and can be NaN, modelled
as `none`. -/
structure DomainSpellLevel where
  domain : String
  level : Option Int
deriving DecidableEq, Repr

/-- Type `SpellSource` from index.ts lines 35-38. -/
structure SpellSource where
  rulebook : String
  page : Nat
deriving DecidableEq, Repr

/-- Type `Spell` from index.ts lines 40-59.  TypeScript `T | null` fields are
`Option T`; `classLevels` elements are `Option ClassSpellLevel` because
`parseClassSpellLevel` returns null for text that does not match its
regular expression and `readClassLevels` maps it without filtering. -/
structure Spell where
  id : String
  name : String
  source : Option SpellSource
  description : Option String
  classLevels : List (Option ClassSpellLevel)
  domainLevels : List DomainSpellLevel
  schools : List String
  subschools : List String
  descriptors : List String
  components : List String
  castingTime : Option String
  range : Option String
  area : Option String
  target : Option String
  effect : Option String
  duration : Option String
  savingThrow : Option String
  spellResistance : Option String
deriving DecidableEq, Repr

/-- `parseClassSpellLevel` from index.ts lines 137-150: the match of
`/^(.*)\s(\d+)$/` against `str`.  The regular expression matches exactly when
the string ends in a whitespace character followed by a nonempty maximal run
of digits, and the prefix before that whitespace contains no line terminator
(`.` does not match line terminators); group 1 is the prefix, group 2 the
digit run.  `none` models the null returned when the match fails. -/
def parseClassSpellLevel (s : String) : Option ClassSpellLevel :=
  match s.data.reverse.dropWhile isDigitChar with
  | [] => none
  | c :: preRev =>
    if s.data.reverse.takeWhile isDigitChar ≠ [] ∧ isJsWhitespace c = true ∧
        preRev.all (fun x => ! isLineTerminator x) then
      some ⟨String.mk preRev.reverse,
            digitsToNat (s.data.reverse.takeWhile isDigitChar).reverse⟩
    else none

/-- The id computation of `crawlSpellPage` (index.ts line 370): group 1 of
`/(\d+)\/?$/.exec(url)` — the maximal trailing run of digits, optionally
followed by a single final slash.  `none` models a failed match, in which
case the TypeScript indexes into null and throws. -/
def extractId (url : String) : Option String :=
  let cs := url.data
  let cs2 :=
    match cs.getLast? with
    | some c => if c = '/' then cs.dropLast else cs
    | none => cs
  match (cs2.reverse.takeWhile isDigitChar).reverse with
  | [] => none
  | ds => some (String.mk ds)

/-- The id extraction as it occurs in the record literal: a failed match
throws a TypeError (indexing `[1]` into null). -/
def idOf (url : String) : Except String String :=
  match extractId url with
  | some i => .ok i
  | none => .error "TypeError"

/-- One loaded spell detail page, at the browser interface boundary.  Each
field is the outcome of the corresponding document query made by an extractor
in `crawlSpellPage` (index.ts lines 163-360): `.ok` carries the value the
browser callback produced (after any `trim` done inside the callback),
`.error` models a rejected query (selector not found, missing sibling, and so
on), which the TypeScript observes as a thrown exception. -/
structure Doc where
  nameRead : Except String String
  sourceRead : Except String (String × String)
  schoolsRead : Except String (List String)
  subschoolsRead : Except String (List String)
  descriptorsRead : Except String (List String)
  classTexts : Except String (List String)
  domainReads : Except String (List (String × String))
  componentsRead : Except String (List String)
  castingTimeRead : Except String String
  rangeRead : Except String String
  areaRead : Except String String
  targetRead : Except String String
  effectRead : Except String String
  durationRead : Except String String
  savingThrowRead : Except String String
  spellResistanceRead : Except String String
  descriptionRead : Except String String

/-- `readName` (index.ts lines 163-171): the catch block rethrows, so a
failed query propagates unchanged. -/
def readName (d : Doc) : Except String String := d.nameRead

/-- `readSource` (index.ts lines 173-185): rulebook text plus the first digit
run of the following text node, parsed as the page number; any exception
(including a missing digit run, which makes the callback index into null)
degrades to null. -/
def readSource (d : Doc) : Option SpellSource :=
  match d.sourceRead with
  | .error _ => none
  | .ok (rb, t) =>
    match firstDigitRun t.data with
    | none => none
    | some ds => some ⟨rb, digitsToNat ds⟩

/-- `readSchools` (index.ts lines 187-196): exceptions degrade to `[]`. -/
def readSchools (d : Doc) : List String :=
  match d.schoolsRead with
  | .error _ => []
  | .ok l => l

/-- `readSubschools` (index.ts lines 198-207): exceptions degrade to `[]`. -/
def readSubschools (d : Doc) : List String :=
  match d.subschoolsRead with
  | .error _ => []
  | .ok l => l

/-- `readDescriptors` (index.ts lines 209-218): exceptions degrade to `[]`. -/
def readDescriptors (d : Doc) : List String :=
  match d.descriptorsRead with
  | .error _ => []
  | .ok l => l

/-- `readClassLevels` (index.ts lines 220-229): the link texts are mapped
through `parseClassSpellLevel` (nulls not filtered); exceptions degrade
to `[]`. -/
def readClassLevels (d : Doc) : List (Option ClassSpellLevel) :=
  match d.classTexts with
  | .error _ => []
  | .ok ts => ts.map parseClassSpellLevel

/-- `readDomainLevels` (index.ts lines 231-250): each domain link text is
paired with `parseInt` of the following text node; exceptions degrade
to `[]`. -/
def readDomainLevels (d : Doc) : List DomainSpellLevel :=
  match d.domainReads with
  | .error _ => []
  | .ok prs => prs.map (fun pr => ⟨pr.1, parseIntJS pr.2⟩)

/-- `readComponents` (index.ts lines 252-261): exceptions degrade to `[]`. -/
def readComponents (d : Doc) : List String :=
  match d.componentsRead with
  | .error _ => []
  | .ok l => l

/-- `readCastingTime` (index.ts lines 263-272): exceptions degrade to null. -/
def readCastingTime (d : Doc) : Option String :=
  match d.castingTimeRead with
  | .error _ => none
  | .ok v => some v

/-- `readRange` (index.ts lines 274-283): exceptions degrade to null. -/
def readRange (d : Doc) : Option String :=
  match d.rangeRead with
  | .error _ => none
  | .ok v => some v

/-- `readArea` (index.ts lines 285-294): exceptions degrade to null. -/
def readArea (d : Doc) : Option String :=
  match d.areaRead with
  | .error _ => none
  | .ok v => some v

/-- `readTarget` (index.ts lines 296-305): exceptions degrade to null. -/
def readTarget (d : Doc) : Option String :=
  match d.targetRead with
  | .error _ => none
  | .ok v => some v

/-- `readEffect` (index.ts lines 307-316): exceptions degrade to null. -/
def readEffect (d : Doc) : Option String :=
  match d.effectRead with
  | .error _ => none
  | .ok v => some v

/-- `readDuration` (index.ts lines 318-327): exceptions degrade to null. -/
def readDuration (d : Doc) : Option String :=
  match d.durationRead with
  | .error _ => none
  | .ok v => some v

/-- `readSavingThrow` (index.ts lines 329-338): exceptions degrade to null. -/
def readSavingThrow (d : Doc) : Option String :=
  match d.savingThrowRead with
  | .error _ => none
  | .ok v => some v

/-- `readSpellResistance` (index.ts lines 340-349): exceptions degrade to
null. -/
def readSpellResistance (d : Doc) : Option String :=
  match d.spellResistanceRead with
  | .error _ => none
  | .ok v => some v

/-- `readDescription` (index.ts lines 351-360): exceptions degrade to null. -/
def readDescription (d : Doc) : Option String :=
  match d.descriptionRead with
  | .error _ => none
  | .ok v => some v

/-- One body of the retry loop of `crawlSpellPage` after a successful
`page.goto` (index.ts lines 369-388): the record literal evaluates the id
expression first (which throws on a failed match), then `readName` (whose
failure propagates), then the guarded extractors, which cannot throw. -/
def crawlAttemptBody (url : String) (d : Doc) : Except String Spell :=
  match idOf url with
  | .error e => .error e
  | .ok i =>
    match readName d with
    | .error e => .error e
    | .ok nm =>
      .ok { id := i, name := nm, source := readSource d,
            description := readDescription d,
            classLevels := readClassLevels d,
            domainLevels := readDomainLevels d,
            schools := readSchools d, subschools := readSubschools d,
            descriptors := readDescriptors d, components := readComponents d,
            castingTime := readCastingTime d, range := readRange d,
            area := readArea d, target := readTarget d,
            effect := readEffect d, duration := readDuration d,
            savingThrow := readSavingThrow d,
            spellResistance := readSpellResistance d }

/-- Result of one `crawlSpellPage` call, instrumented with the number of
load-and-extract attempts that were made.  `noAttempt` is the fall-through
return (undefined) when the loop body never runs, reachable only with a
retry limit of zero. -/
inductive FetchResult where
  | ok (s : Spell) (attemptsUsed : Nat)
  | err (e : String) (attemptsUsed : Nat)
  | noAttempt
deriving DecidableEq, Repr

/-- The retry loop of `crawlSpellPage` (index.ts lines 364-401).
`A i` is the outcome of attempt `i` (0-based); `rc` is the number of loop
iterations still permitted, so the JavaScript post-decrement `retryCount`
is `rc` here, and the catch test `retryCount <= 0` is `rc = 0`. -/
def fetchGo (A : Nat → Except String Spell) : Nat → Nat → FetchResult
  | _, 0 => .noAttempt
  | i, rc + 1 =>
    match A i with
    | .ok s => .ok s (i + 1)
    | .error e => if rc = 0 then .err e (i + 1) else fetchGo A (i + 1) rc

/-- `crawlSpellPage` (index.ts lines 133-407) at the interface boundary:
`loads i` is the outcome of the `page.goto` on attempt `i` (a loaded `Doc`
or a navigation error); a successful load is followed by the record
construction `crawlAttemptBody`. -/
def crawlSpellPageModel (url : String) (loads : Nat → Except String Doc)
    (retryLimit : Nat) : FetchResult :=
  fetchGo (fun i =>
    match loads i with
    | .error e => .error e
    | .ok d => crawlAttemptBody url d) 0 retryLimit

/-- One table row of a spell list page, at the browser interface boundary
(`crawlSpellListPage`, index.ts lines 61-87).  `thQuery` is the outcome of
`row.$("th") !== null`, `rulebookRead` of the fourth-column link text query,
`hrefRead` of the first-column href query. -/
structure Row where
  thQuery : Except String Bool
  rulebookRead : Except String String
  hrefRead : Except String String

/-- The body of the row loop of `crawlSpellListPage` for one row: `some href`
exactly when the row is pushed; `none` when the row is a header, its rulebook
is not allow-listed, or any of its queries throws (the catch logs a warning
and moves on). -/
def rowRef (r : Row) : Option String :=
  match r.thQuery with
  | .error _ => none
  | .ok true => none
  | .ok false =>
    match r.rulebookRead with
    | .error _ => none
    | .ok rb =>
      if rb ∈ RULEBOOKS then
        match r.hrefRead with
        | .error _ => none
        | .ok h => some h
      else none

/-- The row loop of `crawlSpellListPage` with its `spellUrls` accumulator. -/
def listPageGo : List Row → List String → List String
  | [], acc => acc
  | r :: rs, acc =>
    match rowRef r with
    | some h => listPageGo rs (acc ++ [h])
    | none => listPageGo rs acc

/-- `crawlSpellListPage` (index.ts lines 61-87). -/
def crawlSpellListPage (rows : List Row) : List String :=
  listPageGo rows []

/-- The page loop of `crawlSpellListPages` (index.ts lines 97-123) with its
`spellUrls` accumulator.  The catalog is the sequence of pages the loop
visits; the next-page control is present exactly while pages remain, and
navigation to the next page is retried until it succeeds (`navLoop` below
models that inner retry loop). -/
def listPagesGo : List (List Row) → List String → List String
  | [], acc => acc
  | pg :: ps, acc => listPagesGo ps (acc ++ crawlSpellListPage pg)

/-- `crawlSpellListPages` (index.ts lines 89-131). -/
def crawlSpellListPagesModel (catalog : List (List Row)) : List String :=
  listPagesGo catalog []

/-- Observable outcome of the inner navigation retry loop of
`crawlSpellListPages` (index.ts lines 107-118) over a finite observation of
attempt outcomes: the loop either exited after a successful attempt (its
0-based index recorded) or is still retrying.  There is no error outcome:
the catch only logs a warning and loops. -/
inductive NavOutcome where
  | exited (idx : Nat)
  | stillRetrying
deriving DecidableEq, Repr

/-- The navigation retry loop, stepping through attempt outcomes with a
counter for the index of the current attempt. -/
def navLoop : List (Except String Unit) → Nat → NavOutcome
  | [], _ => .stillRetrying
  | .ok _ :: _, k => .exited k
  | .error _ :: rest, k => navLoop rest (k + 1)

/-- The navigation retry loop started at attempt 0. -/
def navLoopRun (attempts : List (Except String Unit)) : NavOutcome :=
  navLoop attempts 0

/-- Observable outcome of one item of the `eachLimit` iteratee of
`crawlSpellPages` (index.ts lines 411-430): the spells passed to
`spellCallback`, and the argument given to `done` (`none` for `done()` and
for `done(null)`, which the async library both treat as success). -/
structure ItemResult where
  callbackCalls : List Spell
  doneArg : Option String
deriving DecidableEq, Repr

/-- The per-item retry loop of `crawlSpellPages` (index.ts lines 412-424).
`A i` is the outcome of the `crawlSpellPage` call on attempt `i` (0-based);
`rc` is the number of iterations still permitted (the JavaScript
post-decrement `retryCount`).  Returns the final `retryCount`, the final
`error` variable, and the callback invocations. -/
def runItemGo (A : Nat → Except String Spell) :
    Nat → Nat → Option String → List Spell → Nat × Option String × List Spell
  | _, 0, err, calls => (0, err, calls)
  | i, rc + 1, err, calls =>
    match A i with
    | .ok s => (rc, err, calls ++ [s])
    | .error e => runItemGo A (i + 1) rc (some e) calls

/-- One item of the `eachLimit` iteratee of `crawlSpellPages`, including the
final `if (retryCount > 0) done(); else done(error);` (index.ts
lines 426-430).  The JavaScript `retryCount` reaches -1 on exhaustion where
the Nat here reaches 0; both fail the `> 0` test. -/
def runItem (A : Nat → Except String Spell) (retryLimit : Nat) : ItemResult :=
  match runItemGo A 0 retryLimit none [] with
  | (rc, err, calls) => if rc > 0 then ⟨calls, none⟩ else ⟨calls, err⟩

/-- The aggregation of `eachLimit` over all items, sequentialised.
Modelled from the spec: the external `async.eachLimit` (not part of this
repository) completes with an error as soon as an iteratee reports one, and
otherwise completes successfully once every item is done; the interleaving
of concurrent items does not affect which of these happens, so the items are
processed here in list order.  `attemptsFor j i` is the outcome of attempt
`i` of item `j`. -/
def runnerGo (attemptsFor : Nat → Nat → Except String Spell) :
    Nat → List String → List Spell → Except String (List Spell)
  | _, [], acc => .ok acc
  | j, _ :: rest, acc =>
    match runItem (attemptsFor j) RETRY_LIMIT with
    | ⟨calls, none⟩ => runnerGo attemptsFor (j + 1) rest (acc ++ calls)
    | ⟨_, some e⟩ => .error e

/-- `crawlSpellPages` (index.ts lines 409-433) composed with the driver
callback that appends each delivered spell: the promise resolves with the
accumulated spells or rejects with the first reported error. -/
def runnerModel (attemptsFor : Nat → Nat → Except String Spell)
    (urls : List String) : Except String (List Spell) :=
  runnerGo attemptsFor 0 urls []

/-- The driver IIFE (index.ts lines 439-474), observed through what is
written to standard output: `launch` is the browser startup outcome,
`listResult` the outcome of `crawlSpellListPages`, `runResult` the outcome of
`crawlSpellPages` on the discovered urls.  `none` means nothing is written:
startup failure and pipeline errors are only logged, and an empty url list
logs "No spells found!" without writing. -/
def mainModel (launch : Except String Unit)
    (listResult : Except String (List String))
    (runResult : List String → Except String (List Spell)) :
    Option (List Spell) :=
  match launch with
  | .error _ => none
  | .ok _ =>
    match listResult with
    | .error _ => none
    | .ok urls =>
      if urls.length > 0 then
        match runResult urls with
        | .ok spells => some spells
        | .error _ => none
      else none

/-- State of the bounded task runner scheduler: references not yet started,
references in flight, references finished. -/
structure SchedState where
  pending : List Nat
  inflight : List Nat
  finished : List Nat

/-- Modelled from the spec: the scheduling behaviour of the external
`async.eachLimit` library (not part of this repository), which "executes the
Detail Fetcher for every reference such that at most N are in flight at any
instant".  A step either starts the next pending reference — only permitted
while fewer than `limit` are in flight — or finishes an in-flight one. -/
inductive SchedStep (limit : Nat) : SchedState → SchedState → Prop where
  | start : ∀ (r : Nat) (rest inflight finished : List Nat),
      inflight.length < limit →
      SchedStep limit ⟨r :: rest, inflight, finished⟩ ⟨rest, r :: inflight, finished⟩
  | finish : ∀ (r : Nat) (pending inflight finished : List Nat),
      r ∈ inflight →
      SchedStep limit ⟨pending, inflight, finished⟩
        ⟨pending, inflight.erase r, finished ++ [r]⟩

/-- States reachable by the scheduler from the initial state in which every
reference is pending and none is in flight. -/
inductive SchedReachable (limit : Nat) (refs : List Nat) : SchedState → Prop where
  | init : SchedReachable limit refs ⟨refs, [], []⟩
  | step : ∀ s t, SchedReachable limit refs s → SchedStep limit s t →
      SchedReachable limit refs t

/-- A fully readable detail page, used as a concrete evaluation point. -/
def okDoc : Doc where
  nameRead := .ok "Fireball"
  sourceRead := .ok ("Player\x27s Handbook v.3.5", " 237.")
  schoolsRead := .ok ["Evocation"]
  subschoolsRead := .ok []
  descriptorsRead := .ok ["Fire"]
  classTexts := .ok ["Sorcerer 3", "Wizard 3"]
  domainReads := .ok [("Fire", " 3,")]
  componentsRead := .ok ["Verbal", "Somatic"]
  castingTimeRead := .ok "1 standard action"
  rangeRead := .ok "Long"
  areaRead := .ok "20-ft.-radius spread"
  targetRead := .ok "One creature"
  effectRead := .ok "Bead of fire"
  durationRead := .ok "Instantaneous"
  savingThrowRead := .ok "Reflex half"
  spellResistanceRead := .ok "Yes"
  descriptionRead := .ok "A fireball is an explosion of flame."

/-- The record `crawlAttemptBody` assembles from `okDoc`. -/
def okSpell : Spell where
  id := "123"
  name := "Fireball"
  source := some ⟨"Player\x27s Handbook v.3.5", 237⟩
  description := some "A fireball is an explosion of flame."
  classLevels := [some ⟨"Sorcerer", 3⟩, some ⟨"Wizard", 3⟩]
  domainLevels := [⟨"Fire", some 3⟩]
  schools := ["Evocation"]
  subschools := []
  descriptors := ["Fire"]
  components := ["Verbal", "Somatic"]
  castingTime := some "1 standard action"
  range := some "Long"
  area := some "20-ft.-radius spread"
  target := some "One creature"
  effect := some "Bead of fire"
  duration := some "Instantaneous"
  savingThrow := some "Reflex half"
  spellResistance := some "Yes"

/-- A page on which every query except the name read rejects. -/
def faultyDoc : Doc where
  nameRead := .ok "Fireball"
  sourceRead := .error "boom"
  schoolsRead := .error "boom"
  subschoolsRead := .error "boom"
  descriptorsRead := .error "boom"
  classTexts := .error "boom"
  domainReads := .error "boom"
  componentsRead := .error "boom"
  castingTimeRead := .error "boom"
  rangeRead := .error "boom"
  areaRead := .error "boom"
  targetRead := .error "boom"
  effectRead := .error "boom"
  durationRead := .error "boom"
  savingThrowRead := .error "boom"
  spellResistanceRead := .error "boom"
  descriptionRead := .error "boom"

/-- The all-defaults record `crawlAttemptBody` assembles from `faultyDoc`. -/
def faultySpell : Spell where
  id := "123"
  name := "Fireball"
  source := none
  description := none
  classLevels := []
  domainLevels := []
  schools := []
  subschools := []
  descriptors := []
  components := []
  castingTime := none
  range := none
  area := none
  target := none
  effect := none
  duration := none
  savingThrow := none
  spellResistance := none

/-- A page on which the name read itself rejects. -/
def nameErrDoc : Doc :=
  { okDoc with nameRead := .error "no h2" }

/-- A page whose class-link text has no trailing spell level. -/
def cDoc5 : Doc :=
  { okDoc with classTexts := .ok ["Wizard"] }

/-- A list row whose rulebook query rejects. -/
def badRow : Row where
  thQuery := .ok false
  rulebookRead := .error "no cell"
  hrefRead := .ok "/spells/phb/123/"

/-- A detail spell used by the task-runner evaluation. -/
def spellX : Spell where
  id := "1"
  name := "X"
  source := none
  description := none
  classLevels := []
  domainLevels := []
  schools := []
  subschools := []
  descriptors := []
  components := []
  castingTime := none
  range := none
  area := none
  target := none
  effect := none
  duration := none
  savingThrow := none
  spellResistance := none

/-- Attempt outcomes of one item that fails nine times and succeeds on the
tenth (last permitted) attempt. -/
def lastAttemptOutcomes : Nat → Except String Spell :=
  fun i => if i < 9 then .error "net" else .ok spellX

/-- Load outcomes of a page whose document load always fails. -/
def failLoads : Nat → Except String Doc := fun _ => .error "net"

/-- Load outcomes of a page whose document load fails twice and succeeds on
the third attempt. -/
def loadsOkAt3 : Nat → Except String Doc :=
  fun i => if i < 2 then .error "net" else .ok okDoc

/-! Helper lemmas. -/

theorem mem_takeWhile_pred {α : Type} (p : α → Bool) :
    ∀ (l : List α) (x : α), x ∈ l.takeWhile p → p x = true := by
  intro l
  induction l with
  | nil => intro x hx; simp [List.takeWhile] at hx
  | cons a l ih =>
    intro x hx
    by_cases hpa : p a = true
    · rw [List.takeWhile_cons, if_pos hpa] at hx
      rcases List.mem_cons.mp hx with rfl | hx
      · exact hpa
      · exact ih x hx
    · rw [List.takeWhile_cons, if_neg hpa] at hx
      simp at hx

theorem takeWhile_all_append {α : Type} (p : α → Bool) :
    ∀ (l₁ : List α) (c : α) (l₂ : List α), (∀ x ∈ l₁, p x = true) → p c = false →
    (l₁ ++ c :: l₂).takeWhile p = l₁ := by
  intro l₁
  induction l₁ with
  | nil => intro c l₂ _ hc; simp [List.takeWhile_cons, hc]
  | cons a l ih =>
    intro c l₂ h hc
    have hpa : p a = true := h a (List.mem_cons_self a l)
    simp only [List.cons_append, List.takeWhile_cons, hpa, if_true]
    rw [ih c l₂ (fun x hx => h x (List.mem_cons_of_mem a hx)) hc]

theorem dropWhile_all_append {α : Type} (p : α → Bool) :
    ∀ (l₁ : List α) (c : α) (l₂ : List α), (∀ x ∈ l₁, p x = true) → p c = false →
    (l₁ ++ c :: l₂).dropWhile p = c :: l₂ := by
  intro l₁
  induction l₁ with
  | nil => intro c l₂ _ hc; simp [List.dropWhile_cons, hc]
  | cons a l ih =>
    intro c l₂ h hc
    have hpa : p a = true := h a (List.mem_cons_self a l)
    simp only [List.cons_append, List.dropWhile_cons, hpa, if_true]
    exact ih c l₂ (fun x hx => h x (List.mem_cons_of_mem a hx)) hc

theorem whitespace_not_digit (c : Char) :
    isJsWhitespace c = true → isDigitChar c = false := by
  unfold isJsWhitespace isDigitChar
  simp only [decide_eq_true_eq, decide_eq_false_iff_not]
  omega

/-- C5 counterexample: on a page whose class link text is "Wizard" (no
trailing level), `readClassLevels` produces a list whose single element is
null, not a well-formed (class, level) pair — so not every element of
`classLevels` is a well-formed pair. -/
theorem classLevels_nonpair_counterexample :
    readClassLevels cDoc5 = [none] ∧
    ¬ (∀ x ∈ readClassLevels cDoc5, x ≠ none) := by
  constructor
  · rfl
  · intro h
    exact h none (by rw [show readClassLevels cDoc5 = [none] from rfl]; simp) rfl

/-- C5 (amended): `classLevels` is the document-order map of
`parseClassSpellLevel` over the class link texts (duplicates kept), and
`domainLevels` the document-order map pairing each domain text with
`parseInt` of the adjacent text (duplicates kept); an element of
`classLevels` is a well-formed (class, level) pair exactly when its text
ends in a whitespace character followed by a nonempty digit run, with no
line terminator before that whitespace, and is null otherwise. -/
theorem levels_parse_order_duplicates :
    ∀ (d : Doc) (ts : List String) (prs : List (String × String)) (s : String)
      (p : ClassSpellLevel),
    (d.classTexts = .ok ts → readClassLevels d = ts.map parseClassSpellLevel) ∧
    (d.domainReads = .ok prs →
      readDomainLevels d = prs.map (fun pr => ⟨pr.1, parseIntJS pr.2⟩)) ∧
    (parseClassSpellLevel s = some p ↔
      ∃ pre c ds, s.data = pre ++ c :: ds ∧ isJsWhitespace c = true ∧ ds ≠ [] ∧
        (∀ x ∈ ds, isDigitChar x = true) ∧ (∀ x ∈ pre, isLineTerminator x = false) ∧
        p = ⟨String.mk pre, digitsToNat ds⟩) := by
  intro d ts prs s p
  refine ⟨fun h => by simp [readClassLevels, h], fun h => by simp [readDomainLevels, h], ?_, ?_⟩
  · intro h
    cases hdw : s.data.reverse.dropWhile isDigitChar with
    | nil =>
      have : parseClassSpellLevel s = none := by
        unfold parseClassSpellLevel; rw [hdw]
      rw [this] at h; simp at h
    | cons c preRev =>
      have hunf : parseClassSpellLevel s =
          (if s.data.reverse.takeWhile isDigitChar ≠ [] ∧ isJsWhitespace c = true ∧
              preRev.all (fun x => ! isLineTerminator x) then
            some ⟨String.mk preRev.reverse,
                  digitsToNat (s.data.reverse.takeWhile isDigitChar).reverse⟩
          else none) := by
        unfold parseClassSpellLevel; rw [hdw]
      rw [hunf] at h
      by_cases hcond : s.data.reverse.takeWhile isDigitChar ≠ [] ∧ isJsWhitespace c = true ∧
          preRev.all (fun x => ! isLineTerminator x) = true
      · refine ⟨preRev.reverse, c, (s.data.reverse.takeWhile isDigitChar).reverse, ?_,
          hcond.2.1, ?_, ?_, ?_, ?_⟩
        · have hsplit : s.data.reverse.takeWhile isDigitChar ++ (c :: preRev) =
              s.data.reverse := by
            conv_rhs => rw [← List.takeWhile_append_dropWhile isDigitChar s.data.reverse]
            rw [hdw]
          have h2 := congrArg List.reverse hsplit
          rw [List.reverse_reverse] at h2
          conv_lhs => rw [← h2]
          simp [List.reverse_append]
        · simpa using hcond.1
        · intro x hx
          exact mem_takeWhile_pred isDigitChar _ x (List.mem_reverse.mp hx)
        · intro x hx
          have := List.all_eq_true.mp hcond.2.2 x (List.mem_reverse.mp hx)
          simpa using this
        · rw [if_pos hcond] at h
          exact (Option.some_injective _ h).symm
      · rw [if_neg hcond] at h
        simp at h
  · rintro ⟨pre, c, ds, hs, hws, hne, hdig, hlt, rfl⟩
    have hcnd : isDigitChar c = false := whitespace_not_digit c hws
    have hrev : s.data.reverse = ds.reverse ++ c :: pre.reverse := by
      rw [hs]; simp [List.reverse_append]
    have hdigr : ∀ x ∈ ds.reverse, isDigitChar x = true := by
      intro x hx; exact hdig x (List.mem_reverse.mp hx)
    have htk : s.data.reverse.takeWhile isDigitChar = ds.reverse := by
      rw [hrev]; exact takeWhile_all_append isDigitChar ds.reverse c pre.reverse hdigr hcnd
    have hdr : s.data.reverse.dropWhile isDigitChar = c :: pre.reverse := by
      rw [hrev]; exact dropWhile_all_append isDigitChar ds.reverse c pre.reverse hdigr hcnd
    have hall : (pre.reverse).all (fun x => ! isLineTerminator x) = true := by
      rw [List.all_eq_true]
      intro x hx
      have := hlt x (List.mem_reverse.mp hx)
      simp [this]
    have hunf : parseClassSpellLevel s =
        (if ds.reverse ≠ [] ∧ isJsWhitespace c = true ∧
            (pre.reverse).all (fun x => ! isLineTerminator x) then
          some ⟨String.mk pre.reverse.reverse, digitsToNat ds.reverse.reverse⟩
        else none) := by
      unfold parseClassSpellLevel
      rw [hdr, htk]
    rw [hunf, if_pos ⟨by simpa using hne, hws, hall⟩]
    simp

/-- Witness for the amended C5 theorem at the concrete page `okDoc`. -/
theorem levels_parse_order_duplicates_witness :
    readClassLevels okDoc = ["Sorcerer 3", "Wizard 3"].map parseClassSpellLevel ∧
    readDomainLevels okDoc =
      [("Fire", " 3,")].map (fun pr => (⟨pr.1, parseIntJS pr.2⟩ : DomainSpellLevel)) :=
  ⟨(levels_parse_order_duplicates okDoc ["Sorcerer 3", "Wizard 3"] [("Fire", " 3,")]
      "" ⟨"", 0⟩).1 rfl,
   (levels_parse_order_duplicates okDoc ["Sorcerer 3", "Wizard 3"] [("Fire", " 3,")]
      "" ⟨"", 0⟩).2.1 rfl⟩

/-- If every attempt up to the remaining count fails, the fetch retry loop
makes exactly that many attempts and raises the error of the last one. -/
theorem fetchGo_all_error (A : Nat → Except String Spell) (es : Nat → String) :
    ∀ (rc i : Nat), 0 < rc → (∀ j, j < rc → A (i + j) = .error (es (i + j))) →
    fetchGo A i rc = .err (es (i + rc - 1)) (i + rc) := by
  intro rc
  induction rc with
  | zero => intro i h; omega
  | succ rc ih =>
    intro i _ h
    have h0 : A i = .error (es i) := by simpa using h 0 (Nat.succ_pos rc)
    by_cases hrc : rc = 0
    · subst hrc
      simp [fetchGo, h0]
    · have hstep : fetchGo A i (rc + 1) = fetchGo A (i + 1) rc := by
        simp [fetchGo, h0, hrc]
      rw [hstep, ih (i + 1) (Nat.pos_of_ne_zero hrc) ?_]
      · rw [show i + 1 + rc - 1 = i + (rc + 1) - 1 by omega,
            show i + 1 + rc = i + (rc + 1) by omega]
      · intro j hj
        have := h (j + 1) (by omega)
        rw [show i + (j + 1) = i + 1 + j by omega] at this
        exact this

/-- If the first success is attempt `k` (0-based) and the loop still has
iterations left, the fetch retry loop returns that success having made
exactly `k + 1` attempts. -/
theorem fetchGo_first_ok (A : Nat → Except String Spell) (es : Nat → String) (s : Spell) :
    ∀ (k i rc : Nat), k < rc → (∀ j, j < k → A (i + j) = .error (es (i + j))) →
    A (i + k) = .ok s → fetchGo A i rc = .ok s (i + k + 1) := by
  intro k
  induction k with
  | zero =>
    intro i rc hk _ hok
    obtain ⟨rc', rfl⟩ : ∃ rc', rc = rc' + 1 := ⟨rc - 1, by omega⟩
    rw [show i + 0 = i by omega] at hok
    simp [fetchGo, hok]
  | succ k ih =>
    intro i rc hk hpre hok
    obtain ⟨rc', rfl⟩ : ∃ rc', rc = rc' + 1 := ⟨rc - 1, by omega⟩
    have h0 : A i = .error (es i) := by simpa using hpre 0 (Nat.succ_pos k)
    have hrc' : rc' ≠ 0 := by omega
    have hstep : fetchGo A i (rc' + 1) = fetchGo A (i + 1) rc' := by
      simp [fetchGo, h0, hrc']
    rw [hstep]
    have hres := ih (i + 1) rc' (by omega)
      (fun j hj => by
        have := hpre (j + 1) (by omega)
        rw [show i + (j + 1) = i + 1 + j by omega] at this
        exact this)
      (by rw [show i + 1 + k = i + (k + 1) by omega]; exact hok)
    rw [hres, show i + 1 + k + 1 = i + (k + 1) + 1 by omega]

/-- C2: if the document load fails on every attempt, `crawlSpellPage`
performs exactly `RETRY_LIMIT` load-and-extract attempts and then raises the
error of the last attempt; if the first successful load-and-extract is
attempt `k + 1` of at most `RETRY_LIMIT`, it returns the assembled record
having made exactly `k + 1` attempts. -/
theorem crawlSpellPage_retry_behavior :
    ∀ (url : String) (loads : Nat → Except String Doc) (es : Nat → String),
    ((∀ i, i < RETRY_LIMIT → loads i = .error (es i)) →
      crawlSpellPageModel url loads RETRY_LIMIT = .err (es (RETRY_LIMIT - 1)) RETRY_LIMIT) ∧
    (∀ k d s, k < RETRY_LIMIT → (∀ i, i < k → loads i = .error (es i)) →
      loads k = .ok d → crawlAttemptBody url d = .ok s →
      crawlSpellPageModel url loads RETRY_LIMIT = .ok s (k + 1)) := by
  intro url loads es
  constructor
  · intro h
    unfold crawlSpellPageModel
    have := fetchGo_all_error
      (fun i => match loads i with | .error e => .error e | .ok d => crawlAttemptBody url d)
      es RETRY_LIMIT 0 (by norm_num [RETRY_LIMIT]) ?_
    · simpa using this
    · intro j hj
      have hj' : j < RETRY_LIMIT := by simpa using hj
      simp only [Nat.zero_add]
      rw [h j hj']
  · intro k d s hk hpre hload hbody
    unfold crawlSpellPageModel
    have := fetchGo_first_ok
      (fun i => match loads i with | .error e => .error e | .ok d => crawlAttemptBody url d)
      es s k 0 RETRY_LIMIT hk ?_ ?_
    · simpa using this
    · intro j hj
      simp only [Nat.zero_add]
      rw [hpre j hj]
    · simp only [Nat.zero_add]
      rw [hload]
      exact hbody

/-- Witness for C2: with every load failing, exactly `RETRY_LIMIT` attempts
are made and the last error raised; with the load succeeding on the third
attempt, the record is returned after exactly 3 attempts. -/
theorem crawlSpellPage_retry_behavior_witness :
    crawlSpellPageModel "/spells/123/" failLoads RETRY_LIMIT = .err "net" RETRY_LIMIT ∧
    crawlSpellPageModel "/spells/123/" loadsOkAt3 RETRY_LIMIT = .ok okSpell 3 :=
  ⟨(crawlSpellPage_retry_behavior "/spells/123/" failLoads (fun _ => "net")).1
      (fun _ _ => rfl),
   (crawlSpellPage_retry_behavior "/spells/123/" loadsOkAt3 (fun _ => "net")).2 2 okDoc okSpell
      (by norm_num [RETRY_LIMIT])
      (fun i hi => by simp [loadsOkAt3, hi])
      (by simp [loadsOkAt3])
      rfl⟩

/-- C3: for every field extractor other than the name extractor, an
exception raised while locating or parsing the field yields the extractor's
documented default (`none` for scalar fields, `[]` for list fields), and as
long as the id and name are available the record is still assembled. -/
theorem guarded_extractors_default_on_error :
    ∀ (d : Doc) (e url i n : String),
    (d.sourceRead = .error e → readSource d = none) ∧
    (d.schoolsRead = .error e → readSchools d = []) ∧
    (d.subschoolsRead = .error e → readSubschools d = []) ∧
    (d.descriptorsRead = .error e → readDescriptors d = []) ∧
    (d.classTexts = .error e → readClassLevels d = []) ∧
    (d.domainReads = .error e → readDomainLevels d = []) ∧
    (d.componentsRead = .error e → readComponents d = []) ∧
    (d.castingTimeRead = .error e → readCastingTime d = none) ∧
    (d.rangeRead = .error e → readRange d = none) ∧
    (d.areaRead = .error e → readArea d = none) ∧
    (d.targetRead = .error e → readTarget d = none) ∧
    (d.effectRead = .error e → readEffect d = none) ∧
    (d.durationRead = .error e → readDuration d = none) ∧
    (d.savingThrowRead = .error e → readSavingThrow d = none) ∧
    (d.spellResistanceRead = .error e → readSpellResistance d = none) ∧
    (d.descriptionRead = .error e → readDescription d = none) ∧
    (idOf url = .ok i → d.nameRead = .ok n → ∃ s, crawlAttemptBody url d = .ok s) := by
  intro d e url i n
  refine ⟨fun h => by simp [readSource, h], fun h => by simp [readSchools, h],
    fun h => by simp [readSubschools, h], fun h => by simp [readDescriptors, h],
    fun h => by simp [readClassLevels, h], fun h => by simp [readDomainLevels, h],
    fun h => by simp [readComponents, h], fun h => by simp [readCastingTime, h],
    fun h => by simp [readRange, h], fun h => by simp [readArea, h],
    fun h => by simp [readTarget, h], fun h => by simp [readEffect, h],
    fun h => by simp [readDuration, h], fun h => by simp [readSavingThrow, h],
    fun h => by simp [readSpellResistance, h], fun h => by simp [readDescription, h],
    fun hid hn => ⟨_, by unfold crawlAttemptBody readName; rw [hid, hn]⟩⟩

/-- Witness for C3 at a concrete page on which every guarded query rejects:
each guarded field takes its default and the record is still assembled. -/
theorem guarded_extractors_default_on_error_witness :
    readSource faultyDoc = none ∧ readSchools faultyDoc = [] ∧
    readSubschools faultyDoc = [] ∧ readDescriptors faultyDoc = [] ∧
    readClassLevels faultyDoc = [] ∧ readDomainLevels faultyDoc = [] ∧
    readComponents faultyDoc = [] ∧ readCastingTime faultyDoc = none ∧
    readRange faultyDoc = none ∧ readArea faultyDoc = none ∧
    readTarget faultyDoc = none ∧ readEffect faultyDoc = none ∧
    readDuration faultyDoc = none ∧ readSavingThrow faultyDoc = none ∧
    readSpellResistance faultyDoc = none ∧ readDescription faultyDoc = none ∧
    ∃ s, crawlAttemptBody "/spells/123/" faultyDoc = .ok s := by
  have T := guarded_extractors_default_on_error faultyDoc "boom" "/spells/123/" "123" "Fireball"
  exact ⟨T.1 rfl, T.2.1 rfl, T.2.2.1 rfl, T.2.2.2.1 rfl, T.2.2.2.2.1 rfl,
    T.2.2.2.2.2.1 rfl, T.2.2.2.2.2.2.1 rfl, T.2.2.2.2.2.2.2.1 rfl,
    T.2.2.2.2.2.2.2.2.1 rfl, T.2.2.2.2.2.2.2.2.2.1 rfl,
    T.2.2.2.2.2.2.2.2.2.2.1 rfl, T.2.2.2.2.2.2.2.2.2.2.2.1 rfl,
    T.2.2.2.2.2.2.2.2.2.2.2.2.1 rfl, T.2.2.2.2.2.2.2.2.2.2.2.2.2.1 rfl,
    T.2.2.2.2.2.2.2.2.2.2.2.2.2.2.1 rfl, T.2.2.2.2.2.2.2.2.2.2.2.2.2.2.2.1 rfl,
    T.2.2.2.2.2.2.2.2.2.2.2.2.2.2.2.2 rfl rfl⟩

/-- C4: a failure of the name extractor is not locally guarded — it aborts
the whole load-and-extract attempt — while a failure of any other extractor
(here the source read) still lets the attempt assemble a record. -/
theorem readName_failure_propagates :
    ∀ (d d2 : Doc) (url e i n : String),
    (idOf url = .ok i → d.nameRead = .error e → crawlAttemptBody url d = .error e) ∧
    (idOf url = .ok i → d2.nameRead = .ok n → d2.sourceRead = .error e →
      ∃ s, crawlAttemptBody url d2 = .ok s ∧ s.name = n ∧ s.source = none) := by
  intro d d2 url e i n
  constructor
  · intro hid hn
    unfold crawlAttemptBody readName
    rw [hid, hn]
  · intro hid hn hsrc
    refine ⟨_, by unfold crawlAttemptBody readName; rw [hid, hn], rfl, ?_⟩
    simp [readSource, hsrc]

/-- Witness for C4: on `nameErrDoc` the attempt fails with the name error;
on `faultyDoc` (source read failing, name fine) a record is assembled. -/
theorem readName_failure_propagates_witness :
    crawlAttemptBody "/spells/123/" nameErrDoc = .error "no h2" ∧
    ∃ s, crawlAttemptBody "/spells/123/" faultyDoc = .ok s ∧
      s.name = "Fireball" ∧ s.source = none :=
  ⟨(readName_failure_propagates nameErrDoc faultyDoc "/spells/123/" "no h2" "123"
      "Fireball").1 rfl rfl,
   (readName_failure_propagates nameErrDoc faultyDoc "/spells/123/" "boom" "123"
      "Fireball").2 rfl rfl rfl⟩

/-- Any record assembled by a load-and-extract attempt carries the id
computed from the url alone. -/
theorem crawlAttemptBody_ok_id :
    ∀ (url : String) (d : Doc) (s : Spell),
    crawlAttemptBody url d = .ok s → idOf url = .ok s.id := by
  intro url d s h
  unfold crawlAttemptBody at h
  cases hid : idOf url with
  | error e => rw [hid] at h; simp at h
  | ok i =>
    rw [hid] at h
    cases hn : readName d with
    | error e => rw [hn] at h; simp at h
    | ok nm =>
      rw [hn] at h
      simp only [Except.ok.injEq] at h
      rw [← h]

/-- C6: the record identifier is a pure function of the item reference (the
trailing numeric segment of the url): two successful fetches of the same url
against arbitrary, possibly different, document contents produce the same
id, and that id is the trailing digit run of the url. -/
theorem spell_id_pure_function_of_url :
    ∀ (url : String) (d1 d2 : Doc) (s1 s2 : Spell),
    crawlAttemptBody url d1 = .ok s1 → crawlAttemptBody url d2 = .ok s2 →
    s1.id = s2.id ∧ extractId url = some s1.id := by
  intro url d1 d2 s1 s2 h1 h2
  have e1 := crawlAttemptBody_ok_id url d1 s1 h1
  have e2 := crawlAttemptBody_ok_id url d2 s2 h2
  rw [e1] at e2
  constructor
  · simpa using e2
  · unfold idOf at e1
    cases hx : extractId url with
    | none => rw [hx] at e1; simp at e1
    | some t => rw [hx] at e1; simp at e1; rw [e1]

/-- Witness for C6: the same url fetched against two different documents
(`okDoc` and `faultyDoc`) yields records with the same id "123". -/
theorem spell_id_pure_function_of_url_witness :
    okSpell.id = faultySpell.id ∧ extractId "/spells/123/" = some okSpell.id :=
  spell_id_pure_function_of_url "/spells/123/" okDoc faultyDoc okSpell faultySpell rfl rfl

/-- The row loop with an accumulator collects, in order, exactly the rows
`rowRef` accepts. -/
theorem listPageGo_eq :
    ∀ (rows : List Row) (acc : List String),
    listPageGo rows acc = acc ++ rows.filterMap rowRef := by
  intro rows
  induction rows with
  | nil => intro acc; simp [listPageGo]
  | cons r rs ih =>
    intro acc
    cases hr : rowRef r with
    | some h => simp [listPageGo, hr, ih]
    | none => simp [listPageGo, hr, ih]

/-- The page loop with an accumulator concatenates the per-page results in
page order. -/
theorem listPagesGo_eq :
    ∀ (catalog : List (List Row)) (acc : List String),
    listPagesGo catalog acc = acc ++ (catalog.map crawlSpellListPage).flatten := by
  intro catalog
  induction catalog with
  | nil => intro acc; simp [listPagesGo]
  | cons pg ps ih => intro acc; simp [listPagesGo, ih]

/-- A row whose rulebook query rejects contributes nothing. -/
theorem rowRef_rulebook_error :
    ∀ (r : Row) (e : String), r.rulebookRead = .error e → rowRef r = none := by
  intro r e he
  unfold rowRef
  cases r.thQuery with
  | error _ => rfl
  | ok b =>
    cases b with
    | true => rfl
    | false => rw [he]

/-- C7: the paginator returns, in page-then-row order, exactly the
references of the non-header rows whose rulebook is in the allow-list and
whose queries succeed; a row whose parse raises is skipped and does not
abort the remaining rows. -/
theorem paginator_filters_and_skips :
    ∀ (catalog : List (List Row)) (rows : List Row) (r : Row) (h : String),
    (crawlSpellListPagesModel catalog = (catalog.map crawlSpellListPage).flatten) ∧
    (crawlSpellListPage rows = rows.filterMap rowRef) ∧
    (rowRef r = some h ↔ r.thQuery = .ok false ∧
      (∃ rb, r.rulebookRead = .ok rb ∧ rb ∈ RULEBOOKS) ∧ r.hrefRead = .ok h) ∧
    (∀ e, r.rulebookRead = .error e →
      crawlSpellListPage (r :: rows) = crawlSpellListPage rows) := by
  intro catalog rows r h
  refine ⟨by simpa using listPagesGo_eq catalog [], by simpa using listPageGo_eq rows [], ?_, ?_⟩
  · cases hth : r.thQuery with
    | error e => simp [rowRef, hth]
    | ok b =>
      cases b with
      | true => simp [rowRef, hth]
      | false =>
        cases hrb : r.rulebookRead with
        | error e => simp [rowRef, hth, hrb]
        | ok rb =>
          by_cases hmem : rb ∈ RULEBOOKS
          · cases hhr : r.hrefRead with
            | error e => simp [rowRef, hth, hrb, hmem, hhr]
            | ok u => simp [rowRef, hth, hrb, hmem, hhr]
          · simp [rowRef, hth, hrb, hmem]
  · intro e he
    have hn := rowRef_rulebook_error r e he
    unfold crawlSpellListPage
    rw [listPageGo_eq, listPageGo_eq]
    simp [hn]

/-- Witness for C7: a row with a failing rulebook query is skipped without
affecting the rest of the page. -/
theorem paginator_filters_and_skips_witness :
    crawlSpellListPage [badRow] = crawlSpellListPage [] :=
  (paginator_filters_and_skips [] [] badRow "x").2.2.2 "no cell" rfl

/-- If every observed navigation attempt fails, the retry loop is still
retrying at any point of the observation: no error is ever surfaced. -/
theorem navLoop_all_error :
    ∀ (attempts : List (Except String Unit)) (k : Nat),
    (∀ a ∈ attempts, ∃ e, a = .error e) → navLoop attempts k = .stillRetrying := by
  intro attempts
  induction attempts with
  | nil => intro k _; rfl
  | cons a rest ih =>
    intro k h
    obtain ⟨e, rfl⟩ := h a (List.mem_cons_self a rest)
    exact ih (k + 1) (fun x hx => h x (List.mem_cons_of_mem _ hx))

/-- If the attempts are some failures followed by a success, the retry loop
exits exactly at the success. -/
theorem navLoop_exits_at_first_ok :
    ∀ (pre : List (Except String Unit)) (post : List (Except String Unit)) (k : Nat),
    (∀ a ∈ pre, ∃ e, a = .error e) →
    navLoop (pre ++ .ok () :: post) k = .exited (k + pre.length) := by
  intro pre
  induction pre with
  | nil => intro post k _; simp [navLoop]
  | cons a rest ih =>
    intro post k h
    obtain ⟨e, rfl⟩ := h a (List.mem_cons_self a rest)
    have := ih post (k + 1) (fun x hx => h x (List.mem_cons_of_mem _ hx))
    rw [List.cons_append]
    show navLoop (rest ++ .ok () :: post) (k + 1) = .exited (k + (rest.length + 1))
    rw [this, show k + 1 + rest.length = k + (rest.length + 1) by omega]

/-- The retry loop can only exit at a successful attempt. -/
theorem navLoop_exit_is_ok :
    ∀ (attempts : List (Except String Unit)) (k m : Nat),
    navLoop attempts k = .exited m →
    k ≤ m ∧ attempts.get? (m - k) = some (.ok ()) := by
  intro attempts
  induction attempts with
  | nil => intro k m h; simp [navLoop] at h
  | cons a rest ih =>
    intro k m h
    cases a with
    | ok u =>
      cases u
      have hm : m = k := by
        simpa [navLoop] using h.symm
      subst hm
      simp
    | error e =>
      have h' : navLoop rest (k + 1) = .exited m := h
      obtain ⟨hle, hget⟩ := ih (k + 1) m h'
      refine ⟨by omega, ?_⟩
      rw [show m - k = (m - (k + 1)) + 1 by omega]
      simpa using hget

/-- C8: the page-to-page navigation of the list paginator is retried without
limit and never surfaces an error: with failures followed by a success the
loop exits exactly at the first success, with only failures observed it is
still retrying, and an exit can only happen at a successful attempt. -/
theorem navigation_retry_unbounded :
    ∀ (pre post attempts : List (Except String Unit)) (k : Nat),
    ((∀ a ∈ pre, ∃ e, a = .error e) →
      navLoopRun (pre ++ .ok () :: post) = .exited pre.length) ∧
    ((∀ a ∈ attempts, ∃ e, a = .error e) → navLoopRun attempts = .stillRetrying) ∧
    (navLoopRun attempts = .exited k → attempts.get? k = some (.ok ())) := by
  intro pre post attempts k
  refine ⟨?_, ?_, ?_⟩
  · intro h
    have := navLoop_exits_at_first_ok pre post 0 h
    simpa [navLoopRun] using this
  · intro h
    exact navLoop_all_error attempts 0 h
  · intro h
    have := navLoop_exit_is_ok attempts 0 k h
    simpa using this.2

/-- Witness for C8: two failures followed by a success exit the loop at the
third attempt, and two failures alone leave it retrying. -/
theorem navigation_retry_unbounded_witness :
    navLoopRun [Except.error "net", Except.error "net", Except.ok ()] = .exited 2 ∧
    navLoopRun [Except.error "net", Except.error "net"] = .stillRetrying :=
  ⟨(navigation_retry_unbounded [Except.error "net", Except.error "net"] [] [] 0).1
      (fun a ha => by
        rcases List.mem_cons.mp ha with rfl | ha2
        · exact ⟨"net", rfl⟩
        · rcases List.mem_cons.mp ha2 with rfl | ha3
          · exact ⟨"net", rfl⟩
          · simp at ha3),
   (navigation_retry_unbounded [] [] [Except.error "net", Except.error "net"] 0).2.1
      (fun a ha => by
        rcases List.mem_cons.mp ha with rfl | ha2
        · exact ⟨"net", rfl⟩
        · rcases List.mem_cons.mp ha2 with rfl | ha3
          · exact ⟨"net", rfl⟩
          · simp at ha3)⟩

/-- If every attempt within the remaining count fails, the per-item retry
loop of the task runner ends with a zero retry count, the last error
recorded, and no callback invocation. -/
theorem runItemGo_all_error (A : Nat → Except String Spell) (es : Nat → String) :
    ∀ (rc i : Nat) (err : Option String) (calls : List Spell),
    0 < rc → (∀ j, j < rc → A (i + j) = .error (es (i + j))) →
    runItemGo A i rc err calls = (0, some (es (i + rc - 1)), calls) := by
  intro rc
  induction rc with
  | zero => intro i err calls h; omega
  | succ rc ih =>
    intro i err calls _ h
    have h0 : A i = .error (es i) := by simpa using h 0 (Nat.succ_pos rc)
    by_cases hrc : rc = 0
    · subst hrc
      simp [runItemGo, h0]
    · have hstep : runItemGo A i (rc + 1) err calls =
          runItemGo A (i + 1) rc (some (es i)) calls := by
        simp [runItemGo, h0]
      rw [hstep, ih (i + 1) (some (es i)) calls (Nat.pos_of_ne_zero hrc) ?_]
      · rw [show i + 1 + rc - 1 = i + (rc + 1) - 1 by omega]
      · intro j hj
        have := h (j + 1) (by omega)
        rw [show i + (j + 1) = i + 1 + j by omega] at this
        exact this

/-- An item whose attempts all fail reports the last error to `done` and
never invokes the callback. -/
theorem runItem_exhausts (A : Nat → Except String Spell) (es : Nat → String) :
    (∀ i, i < RETRY_LIMIT → A i = .error (es i)) →
    runItem A RETRY_LIMIT = ⟨[], some (es (RETRY_LIMIT - 1))⟩ := by
  intro h
  unfold runItem
  rw [runItemGo_all_error A es RETRY_LIMIT 0 none [] (by norm_num [RETRY_LIMIT])
    (fun j hj => by simpa using h j (by simpa using hj))]
  simp

/-- If any remaining item reports an error to `done`, the sequentialised
runner completes with an error. -/
theorem runnerGo_err (attemptsFor : Nat → Nat → Except String Spell) :
    ∀ (rest : List String) (j k : Nat) (acc : List Spell),
    k < rest.length → (runItem (attemptsFor (j + k)) RETRY_LIMIT).doneArg ≠ none →
    ∃ e, runnerGo attemptsFor j rest acc = .error e := by
  intro rest
  induction rest with
  | nil => intro j k acc hk; simp at hk
  | cons u rest ih =>
    intro j k acc hk hbad
    cases hri : runItem (attemptsFor j) RETRY_LIMIT with
    | mk calls da =>
      cases da with
      | some e =>
        refine ⟨e, ?_⟩
        unfold runnerGo
        rw [hri]
      | none =>
        have hk0 : k ≠ 0 := by
          intro h0
          rw [h0, Nat.add_zero, hri] at hbad
          simp at hbad
        obtain ⟨k', rfl⟩ : ∃ k', k = k' + 1 := ⟨k - 1, by omega⟩
        have hbad' : (runItem (attemptsFor (j + 1 + k')) RETRY_LIMIT).doneArg ≠ none := by
          rw [show j + 1 + k' = j + (k' + 1) by omega]
          exact hbad
        obtain ⟨e, he⟩ := ih (j + 1) k' (acc ++ calls) (by simpa using hk) hbad'
        refine ⟨e, ?_⟩
        unfold runnerGo
        rw [hri]
        exact he

/-- C9: output is all-or-nothing — the spell array reaches standard output
exactly when the browser started, the paginator found at least one
reference, and the task runner resolved; and if any discovered item fails
all of its `RETRY_LIMIT` attempts, nothing at all is written. -/
theorem output_all_or_nothing :
    ∀ (launch : Except String Unit) (lr : Except String (List String))
      (rr : List String → Except String (List Spell)) (out : List Spell)
      (attemptsFor : Nat → Nat → Except String Spell) (urls : List String)
      (j : Nat) (es : Nat → String),
    (mainModel launch lr rr = some out ↔
      launch = .ok () ∧ ∃ us, lr = .ok us ∧ us ≠ [] ∧ rr us = .ok out) ∧
    (j < urls.length → (∀ i, i < RETRY_LIMIT → attemptsFor j i = .error (es i)) →
      lr = .ok urls → mainModel launch lr (runnerModel attemptsFor) = none) ∧
    (∀ e, launch = .error e → mainModel launch lr rr = none) := by
  intro launch lr rr out attemptsFor urls j es
  refine ⟨?_, ?_, fun e hl => by subst hl; simp [mainModel]⟩
  · cases launch with
    | error e => simp [mainModel]
    | ok u =>
      cases u
      cases lr with
      | error e => simp [mainModel]
      | ok us =>
        by_cases hus : us = []
        · subst hus
          simp [mainModel]
        · have hlen : us.length > 0 := List.length_pos.mpr hus
          cases hrr : rr us with
          | error e => simp [mainModel, hlen, hrr, hus]
          | ok sp => simp [mainModel, hlen, hrr, hus, eq_comm]
  · intro hk hfail hlr
    subst hlr
    cases launch with
    | error e => simp [mainModel]
    | ok u =>
      have hdone : (runItem (attemptsFor j) RETRY_LIMIT).doneArg ≠ none := by
        rw [runItem_exhausts (attemptsFor j) es hfail]
        simp
      have hbad : (runItem (attemptsFor (0 + j)) RETRY_LIMIT).doneArg ≠ none := by
        simpa using hdone
      obtain ⟨e, he⟩ := runnerGo_err attemptsFor urls 0 j [] hk hbad
      have hlen : urls.length > 0 := by omega
      simp only [mainModel, hlen, if_true]
      have he2 : runnerModel attemptsFor urls = .error e := he
      rw [he2]

/-- Witness for C9: one discovered reference whose every attempt fails makes
the driver write nothing. -/
theorem output_all_or_nothing_witness :
    mainModel (.ok ()) (.ok ["/spells/123/"])
      (runnerModel (fun _ _ => .error "net")) = none ∧
    mainModel (.error "boom") (.ok ["/spells/123/"])
      (runnerModel (fun _ _ => .error "net")) = none :=
  ⟨(output_all_or_nothing (.ok ()) (.ok ["/spells/123/"]) (fun _ => .ok []) []
      (fun _ _ => .error "net") ["/spells/123/"] 0 (fun _ => "net")).2.1
    (by norm_num) (fun _ _ => rfl) rfl,
   (output_all_or_nothing (.error "boom") (.ok ["/spells/123/"]) (fun _ => .ok []) []
      (fun _ _ => .error "net") ["/spells/123/"] 0 (fun _ => "net")).2.2
    "boom" rfl⟩

/-- C10: in every state the scheduler can reach, at most `limit` detail
fetches are in flight; in particular with the configured
`CONCURRENCY = 4`. -/
theorem concurrency_bound_invariant :
    ∀ (limit : Nat) (refs : List Nat) (s : SchedState),
    SchedReachable limit refs s → s.inflight.length ≤ limit := by
  intro limit refs s h
  induction h with
  | init => simp
  | step s t hreach hstep ih =>
    cases hstep with
    | start r rest inflight finished hlt =>
      simpa using hlt
    | finish r pending inflight finished hmem =>
      have hle : (inflight.erase r).length ≤ inflight.length :=
        List.length_erase_le r inflight
      simp only at ih ⊢
      omega

/-- Witness for C10: the initial state of a run over an empty reference list
is reachable and satisfies the bound at the configured concurrency. -/
theorem concurrency_bound_invariant_witness :
    (SchedState.mk [] [] []).inflight.length ≤ CONCURRENCY :=
  concurrency_bound_invariant CONCURRENCY [] (SchedState.mk [] [] [])
    SchedReachable.init

/-- C1 (failing-input evaluation): an item whose `crawlSpellPage` call fails
on attempts 1 through 9 and succeeds on attempt 10 — the last attempt
permitted by `RETRY_LIMIT` — has the callback invoked with the record, yet
the iteratee still calls `done` with the attempt-9 error, because the final
test `retryCount > 0` misclassifies a success obtained on the last
iteration; `eachLimit` therefore rejects and the whole run fails even though
no reference exhausted its attempts without success. -/
theorem runItem_last_attempt_success_rejected :
    runItem lastAttemptOutcomes RETRY_LIMIT =
      ⟨[spellX], some "net"⟩ := by
  rfl

end DndCrawler
